import Mathlib

/-!
Verification of the AgriConnect web application's page-local pure logic
against its natural-language specification.

The TypeScript pages are shallowly embedded: JS numbers that the code
guards with `Number.isFinite` are modelled as `Option ℚ` (with `none`
standing for a missing / null / non-finite value), JS strings as `String`
(with `toLowerCase` and `trim` embedded as the character-list maps
`jsToLower` / `jsTrim`), nullable fields as `Option`, and the falsy guard
`!x` on an id as the `none` / empty-string cases.  Stateful handlers are
embedded as pure functions from their inputs (and an environment record
describing backend responses) to an outcome record listing the state they
set and the external actions they attempt.
-/

/-- JS `String.prototype.toLowerCase` for the ASCII strings this
application handles, written over the character list so that it reduces
in the kernel. -/
def jsToLower (s : String) : String :=
  String.mk (s.toList.map Char.toLower)

/-- JS `String.prototype.trim` (ASCII whitespace), written over the
character list so that it reduces in the kernel. -/
def jsTrim (s : String) : String :=
  String.mk (((s.toList.dropWhile Char.isWhitespace).reverse.dropWhile
      Char.isWhitespace).reverse)

/-- Substring test on character lists: `leadsChars n h` is true when `n`
is an initial segment of `h` (the JS `String.prototype.startsWith` on the
remaining text). -/
def leadsChars : List Char → List Char → Bool
  | [], _ => true
  | _ :: _, [] => false
  | a :: n, b :: h => a == b && leadsChars n h

/-- JS `String.prototype.includes` on character lists: `hasSub h n` is
true when `n` occurs contiguously inside `h`. -/
def hasSub : List Char → List Char → Bool
  | [], n => leadsChars n []
  | c :: h, n => leadsChars n (c :: h) || hasSub h n

/-- JS `hay.includes(needle)`. -/
def strContains (hay needle : String) : Bool :=
  hasSub hay.toList needle.toList

/-- Embedding of `safeNumber` (src/unnamed/part_001, lines 44-47):
`Number(v)` guarded by `Number.isFinite`; `none` models a missing or
non-finite value, which falls back to `fallback`. -/
def safeNumber (v : Option ℚ) (fallback : ℚ) : ℚ :=
  match v with
  | some n => n
  | none => fallback

namespace Home

/-- Embedding of the `Product` row type of the Home page
(src/unnamed/part_001, lines 12-26).  `price_per_unit` and `quantity`
are `Option ℚ` because a JS `number` field may hold a non-finite value
(`none`); `distance_km`, `variety`, `listed_at` and `photo` are nullable
in the source. -/
structure Product where
  id : String
  crop_name : String
  variety : Option String
  quality : String
  price_per_unit : Option ℚ
  quantity : Option ℚ
  unit : String
  farmer_name : String
  farmer_location : String
  distance_km : Option ℚ
  listed_at : Option String
  is_available : Bool
  photo : Option String
  deriving DecidableEq, Repr

/-- A raw realtime payload row (`payload.new` in src/unnamed/part_001,
lines 116-133): every field may be absent. -/
structure RawRow where
  id : Option String
  crop_name : Option String
  variety : Option String
  quality : Option String
  price_per_unit : Option ℚ
  quantity : Option ℚ
  unit : Option String
  farmer_name : Option String
  farmer_location : Option String
  distance_km : Option ℚ
  listed_at : Option String
  is_available : Bool
  photo : Option String
  deriving DecidableEq, Repr

/-- Embedding of the `normalized` record built by the Home page realtime
handler (src/unnamed/part_001, lines 119-133).  Note the source applies
`??`-defaults but does not lower-case `quality` (it is only cast). -/
def normalizeRow (i : String) (r : RawRow) : Product where
  id := i
  crop_name := r.crop_name.getD "Produce"
  variety := r.variety
  quality := r.quality.getD "standard"
  price_per_unit := some (safeNumber r.price_per_unit 0)
  quantity := some (safeNumber r.quantity 0)
  unit := r.unit.getD "kg"
  farmer_name := r.farmer_name.getD "Unknown Farmer"
  farmer_location := r.farmer_location.getD "Uganda"
  distance_km := r.distance_km
  listed_at := r.listed_at
  is_available := r.is_available
  photo := r.photo

/-- A realtime change event: `delete` carries `payload.old?.id` (absent
modelled as `none`), `upsert` covers the INSERT/UPDATE cases and carries
`payload.new`. -/
inductive RealtimeEvent where
  | delete (oldId : Option String)
  | upsert (row : RawRow)
  deriving Repr

/-- Embedding of the Home page realtime `setProducts` updater
(src/unnamed/part_001, lines 108-143): DELETE filters by the old id
(no-op when the id is falsy); INSERT/UPDATE normalizes the payload, drops
the row when it is unavailable, replaces in place when a row with the id
exists, and prepends otherwise. -/
def applyEvent (prev : List Product) : RealtimeEvent → List Product
  | .delete none => prev
  | .delete (some oldId) =>
      if oldId = "" then prev
      else prev.filter (fun p => p.id ≠ oldId)
  | .upsert r =>
      match r.id with
      | none => prev
      | some i =>
          if i = "" then prev
          else
            let n := normalizeRow i r
            if n.is_available = false then prev.filter (fun p => p.id ≠ n.id)
            else
              match prev.find? (fun p => p.id = n.id) with
              | some _ => prev.map (fun p => if p.id = n.id then n else p)
              | none => n :: prev

/-- Modelled from the spec (§4.3): the normalization the specification
describes, which in addition to the `??`-defaults also lower-cases the
enumerated `quality` field. -/
def normalizeRowSpec (i : String) (r : RawRow) : Product :=
  { normalizeRow i r with quality := jsToLower (r.quality.getD "standard") }

/-- Modelled from the spec (§4.3): the merge as the claim states it, i.e.
the same control flow as `applyEvent` but using the spec's normalization
(with lower-cased enumerated fields). -/
def applyEventSpec (prev : List Product) : RealtimeEvent → List Product
  | .delete none => prev
  | .delete (some oldId) =>
      if oldId = "" then prev
      else prev.filter (fun p => p.id ≠ oldId)
  | .upsert r =>
      match r.id with
      | none => prev
      | some i =>
          if i = "" then prev
          else
            let n := normalizeRowSpec i r
            if n.is_available = false then prev.filter (fun p => p.id ≠ n.id)
            else
              match prev.find? (fun p => p.id = n.id) with
              | some _ => prev.map (fun p => if p.id = n.id then n else p)
              | none => n :: prev

/-- A raw payload row whose `quality` arrives upper-cased. -/
def rawTopQuality : RawRow where
  id := some "a"
  crop_name := some "Coffee"
  variety := none
  quality := some "TOP"
  price_per_unit := some 1000
  quantity := some 5
  unit := none
  farmer_name := none
  farmer_location := none
  distance_km := none
  listed_at := none
  is_available := true
  photo := none

/-- Embedding of the `hay` string of the Home page free-text filter
(src/unnamed/part_001, line 157): the lower-cased space-joined
concatenation of crop name, variety (empty when falsy), farmer location
and farmer name. -/
def homeHay (p : Product) : String :=
  jsToLower (p.crop_name ++ " " ++ p.variety.getD "" ++ " " ++ p.farmer_location ++ " " ++
    p.farmer_name)

/-- Embedding of the free-text branch of the Home page `filtered` memo
(src/unnamed/part_001, lines 154-160): trim and lower-case the query and,
when non-empty, keep the rows whose hay string contains it. -/
def textFilter (query : String) (rows : List Product) : List Product :=
  let q := jsToLower (jsTrim query)
  if q = "" then rows else rows.filter (fun p => strContains (homeHay p) q)

/-- Embedding of the max-price branch of the Home page `filtered` memo
(src/unnamed/part_001, lines 164-167), for the case where a ceiling is
set: keep the rows whose (safe-numbered) price is at most the ceiling. -/
def priceFilter (maxPrice : ℚ) (rows : List Product) : List Product :=
  let mp := safeNumber (some maxPrice) 0
  rows.filter (fun p => safeNumber p.price_per_unit 0 ≤ mp)

end Home

/-- JS `x || d` on a nullable string: the default replaces both `null`
and the empty string (both falsy). -/
def jsOrD (o : Option String) (d : String) : String :=
  match o with
  | none => d
  | some s => if s = "" then d else s

/-- JS `x || 0` on a nullable number (`none` also covers `NaN`, which is
falsy): the result of `Number(x || 0)` for finite `x`. -/
def jsNumOr0 (o : Option ℚ) : ℚ :=
  match o with
  | none => 0
  | some x => x

/-- Comparator common to the ascending-distance sorts of the Discover
pins (`(a.distanceKm ?? Infinity) - (b.distanceKm ?? Infinity)`, with the
two-`null` `NaN` result treated as equality per the ECMAScript sort
specification) and of the Marketplace demand list (explicit
`null`-last comparator): `none` sorts after every `some`. -/
def distLe (a b : Option ℚ) : Bool :=
  match a, b with
  | none, none => true
  | none, some _ => false
  | some _, none => true
  | some x, some y => decide (x ≤ y)

namespace ProductsList

/-- Embedding of the `FarmProduce` interface of the products list page
(src/unnamed/part_002, lines 28-45). -/
structure FarmProduce where
  id : String
  farmer_id : Option String
  farmer_name : String
  farmer_location : String
  crop_name : String
  crop_category : Option String
  variety : Option String
  quality : String
  quantity : Option ℚ
  unit : String
  price_per_unit : Option ℚ
  distance_km : Option ℚ
  is_available : Bool
  listed_at : String
  photo : Option String
  farmer_phone : Option String
  deriving DecidableEq, Repr

/-- Embedding of the predicate inside `filteredProducts`
(src/unnamed/part_002, lines 151-166): `q` is the already trimmed and
lower-cased query; the free-text match is a disjunction of per-field
substring tests over crop name, farmer name, location and category
(variety is not consulted), and the category filter has an `all`
sentinel. -/
def productsMatches (q selectedCategory : String) (p : FarmProduce) : Bool :=
  let crop := jsToLower p.crop_name
  let farmer := jsToLower p.farmer_name
  let location := jsToLower p.farmer_location
  let category := jsToLower (p.crop_category.getD "")
  let matchesSearch := q == "" || strContains crop q || strContains farmer q ||
    strContains location q || strContains category q
  let matchesCategory := selectedCategory == "all" || category == selectedCategory ||
    strContains crop selectedCategory
  matchesSearch && matchesCategory

/-- Embedding of the filter stage of `filteredProducts`
(src/unnamed/part_002, lines 148-167), before the sort stage (which no
claim concerns for this page). -/
def filteredProductsPre (search selectedCategory : String)
    (products : List FarmProduce) : List FarmProduce :=
  products.filter (productsMatches (jsToLower (jsTrim search)) selectedCategory)

/-- JS `phone.replace(/[^\d]/g, '')`. -/
def digitsOnly (s : String) : String :=
  String.mk (s.toList.filter Char.isDigit)

/-- Embedding of `normalizeWhatsapp` (src/unnamed/part_002, lines
100-106): keep digits only; when the result is exactly 10 digits starting
with `0`, replace the leading zero with the Uganda country code 256. -/
def normalizeWhatsapp (phone : String) : String :=
  let digits := digitsOnly phone
  if digits.length = 10 ∧ digits.toList.head? = some '0' then
    "256" ++ String.mk (digits.toList.drop 1)
  else digits

end ProductsList

namespace ProductDetail

/-- JS `s.replace('+', '')`: removes only the first occurrence. -/
def removeOnePlus : List Char → List Char
  | [] => []
  | a :: rest => if a == '+' then rest else a :: removeOnePlus rest

/-- Embedding of the phone normalization inside `handleMessageFarmer`
(src/app/products/[id]/page.tsx, lines 331-339): keep digits AND plus
signs; when the result starts with `0` (at any length), prepend 256 to
the rest; otherwise remove only the first plus sign. -/
def msgFarmerPhone (raw : String) : String :=
  let phone := String.mk (raw.toList.filter (fun c => c.isDigit || c == '+'))
  if phone.toList.head? = some '0' then
    "256" ++ String.mk (phone.toList.drop 1)
  else String.mk (removeOnePlus phone.toList)

end ProductDetail

namespace Discover

/-- Embedding of the `ProduceRow` interface
(src/app/products/[id]/page.tsx, lines 790-808).  The
`google_maps_link` field is carried through untouched by the logic any
claim concerns and is omitted. -/
structure ProduceRow where
  id : String
  farmer_name : Option String
  farmer_location : Option String
  crop_name : Option String
  crop_category : Option String
  variety : Option String
  quality : Option String
  quantity : Option ℚ
  unit : Option String
  price_per_unit : Option ℚ
  photo : Option String
  farmer_phone : Option String
  location_lat : Option ℚ
  location_lng : Option ℚ
  is_available : Option Bool
  listed_at : Option String
  deriving DecidableEq, Repr

/-- Embedding of the `ProductPin` type (src/app/products/[id]/page.tsx,
lines 810-825), without the presentational `google_maps_link`. -/
structure ProductPin where
  id : String
  crop_name : String
  crop_category : String
  variety : Option String
  quality : String
  quantity : ℚ
  unit : String
  price_per_unit : ℚ
  farmer_name : String
  farmer_location : String
  lat : ℚ
  lng : ℚ
  distanceKm : Option ℚ
  deriving DecidableEq, Repr

/-- Embedding of `makePin` (src/app/products/[id]/page.tsx, lines
884-905), parametrized by the distance function (the real-valued
`haversineKm` is embedded separately in the `Geo` namespace): rows with
a missing coordinate or without `is_available === true` yield no pin;
the distance is computed only when both user coordinates are non-null. -/
def makePin (distFn : ℚ → ℚ → ℚ → ℚ → ℚ) (userLat userLng : Option ℚ)
    (row : ProduceRow) : Option ProductPin :=
  match row.location_lat, row.location_lng with
  | some lat, some lng =>
      if row.is_available ≠ some true then none
      else
        some
          { id := row.id
            crop_name := jsOrD row.crop_name "Produce"
            crop_category := jsToLower (jsOrD row.crop_category "other")
            variety := row.variety
            quality := jsToLower (jsOrD row.quality "standard")
            quantity := jsNumOr0 row.quantity
            unit := jsOrD row.unit "kg"
            price_per_unit := jsNumOr0 row.price_per_unit
            farmer_name := jsOrD row.farmer_name "Unknown Farmer"
            farmer_location := jsOrD row.farmer_location "Uganda"
            lat := lat
            lng := lng
            distanceKm :=
              match userLat, userLng with
              | some ulat, some ulng => some (distFn ulat ulng lat lng)
              | _, _ => none }
  | _, _ => none

/-- Embedding of the radius part of the `pins` filter
(src/app/products/[id]/page.tsx, line 1056): a `null` distance passes
for every radius. -/
def matchesRadius (radiusKm : ℚ) (d : Option ℚ) : Bool :=
  match d with
  | none => true
  | some dist => decide (dist ≤ radiusKm)

/-- Embedding of the `pins` memo of `DiscoverClient`
(src/app/products/[id]/page.tsx, lines 1040-1062): map rows through
`makePin` and drop the `null`s, filter by free-text match and radius,
then sort ascending by distance (missing distance last). -/
def pins (distFn : ℚ → ℚ → ℚ → ℚ → ℚ) (userLoc : Option (ℚ × ℚ))
    (search : String) (radiusKm : ℚ) (rows : List ProduceRow) : List ProductPin :=
  let ulat := userLoc.map Prod.fst
  let ulng := userLoc.map Prod.snd
  let mapped := rows.filterMap (makePin distFn ulat ulng)
  let q := jsToLower (jsTrim search)
  let filtered := mapped.filter (fun p =>
    (q == "" || strContains (jsToLower p.crop_name) q ||
      strContains (jsToLower p.farmer_name) q ||
      strContains (jsToLower p.farmer_location) q ||
      strContains (jsToLower p.crop_category) q) &&
    matchesRadius radiusKm p.distanceKm)
  filtered.mergeSort (fun a b => distLe a.distanceKm b.distanceKm)

end Discover

namespace Marketplace

/-- Embedding of the fields of `ListingRow` consulted by
`filteredDemands` (src/app/marketplace/page.tsx): only the crop name and
the number of listings matter there. -/
structure ListingRow where
  id : String
  crop_name : String
  deriving DecidableEq, Repr

/-- Embedding of the `BuyerDemandRow` interface
(src/app/marketplace/page.tsx, lines 31-46).  The `status` field is kept
as a plain string. -/
structure BuyerDemandRow where
  id : String
  buyer_id : Option String
  buyer_name : String
  crop_name : String
  preferred_quality : String
  quantity : ℚ
  unit : String
  target_price_per_unit : ℚ
  radius_km : ℚ
  location_text : Option String
  location_lat : Option ℚ
  location_lng : Option ℚ
  notes : Option String
  status : String
  created_at : String
  deriving DecidableEq, Repr

/-- Embedding of the distance computation inside `filteredDemands`
(src/app/marketplace/page.tsx, lines 243-252): the JS truthiness guard
`sellerLocation && demand.location_lat && demand.location_lng` makes a
zero coordinate (falsy) skip the computation as well. -/
def demandDistance (distFn : ℚ → ℚ → ℚ → ℚ → ℚ) (sellerLocation : Option (ℚ × ℚ))
    (d : BuyerDemandRow) : Option ℚ :=
  match sellerLocation, d.location_lat, d.location_lng with
  | some loc, some lat, some lng =>
      if lat ≠ 0 ∧ lng ≠ 0 then some (distFn loc.1 loc.2 lat lng) else none
  | _, _, _ => none

/-- Embedding of the search predicate inside `filteredDemands`
(src/app/marketplace/page.tsx, lines 258-262): `searchLower` is the
lower-cased (untrimmed) search text; a `null` `location_text` contributes
a falsy (`false`) disjunct via optional chaining. -/
def demandMatchesSearch (search searchLower : String) (d : BuyerDemandRow) : Bool :=
  search == "" || strContains (jsToLower d.crop_name) searchLower ||
    strContains (jsToLower d.buyer_name) searchLower ||
    (match d.location_text with
     | some t => strContains (jsToLower t) searchLower
     | none => false)

/-- Embedding of `filteredDemands` (src/app/marketplace/page.tsx, lines
238-278): pair each demand with its (possibly `null`) distance, filter by
search, radius (`null` distance always passes) and same-crop, then sort
with the explicit `null`-last ascending-distance comparator. -/
def filteredDemands (distFn : ℚ → ℚ → ℚ → ℚ → ℚ) (sellerLocation : Option (ℚ × ℚ))
    (search : String) (radiusKm : ℚ) (listings : List ListingRow)
    (demands : List BuyerDemandRow) : List (BuyerDemandRow × Option ℚ) :=
  let searchLower := jsToLower search
  let userCrops := listings.map (fun l => jsToLower l.crop_name)
  ((demands.map (fun d => (d, demandDistance distFn sellerLocation d))).filter
      (fun p =>
        let matchesSearch := demandMatchesSearch search searchLower p.1
        let matchesRadius :=
          match p.2 with
          | none => true
          | some dist => decide (dist ≤ radiusKm)
        let matchesCrop := listings.isEmpty || userCrops.contains (jsToLower p.1.crop_name)
        matchesSearch && matchesRadius && matchesCrop)).mergeSort
    (fun a b => distLe a.2 b.2)

end Marketplace

namespace Signup

/-- Embedding of the error translation in the sign-up submit handler
(src/unnamed/part_000, lines 125-132): messages containing `already` or
`registered` (case-insensitively) become the duplicate-account message;
any other message is shown verbatim, with the generic fallback only for
an empty/absent message (`error.message || ...`). -/
def signupErrorMessage (m : String) : String :=
  if strContains (jsToLower m) "already" || strContains (jsToLower m) "registered" then
    "An account with this email already exists."
  else if m = "" then "Registration failed. Please try again."
  else m

/-- Modelled from the spec (§4.4): the translation as the claim states
it, where every unmatched error falls back to the fixed generic
message. -/
def signupErrorMessageSpec (m : String) : String :=
  if strContains (jsToLower m) "already" || strContains (jsToLower m) "registered" then
    "An account with this email already exists."
  else "Registration failed. Please try again."

/-- Embedding of `redirectAfterSignup` (src/unnamed/part_000, lines
92-96). -/
def redirectAfterSignup (role : String) : String :=
  if role = "farmer" then "/farmer/dashboard"
  else if role = "buyer" then "/buyer/dashboard"
  else "/dashboard"

/-- Outcome of the auth service's sign-up call as seen by the handler:
either an error with a message, or success together with whether a
session is active. -/
inductive AuthSignupResult where
  | authError (message : String)
  | success (hasSession : Bool)
  deriving DecidableEq, Repr

/-- State the sign-up submit handler leaves behind: the `errors.submit`
message, the success banner and the route pushed (if any). -/
structure SignupOutcome where
  submitError : Option String
  successMsg : Option String
  navTarget : Option String
  deriving DecidableEq, Repr

/-- Embedding of the post-auth part of the sign-up `handleSubmit`
(src/unnamed/part_000, lines 110-146): an auth error sets the translated
message and returns before any navigation; success without a session
navigates to `/check-email`; success with a session navigates by role. -/
def handleSignupResult (role : String) : AuthSignupResult → SignupOutcome
  | .authError m => ⟨some (signupErrorMessage m), none, none⟩
  | .success false =>
      ⟨none, some "Account created! Please check your email to verify your account.",
        some "/check-email"⟩
  | .success true =>
      ⟨none, some "Account created successfully! Redirecting…",
        some (redirectAfterSignup role)⟩

end Signup

namespace Profile

/-- Inputs of `saveProduct` (src/app/profile/page.tsx, lines 526-600)
that drive its control flow.  `quantityNum` and `priceNum` stand for
`Number(quantity.trim())` / `Number(pricePerUnit.trim())`, with `none`
for a non-finite result. -/
structure SaveInput where
  authenticated : Bool
  role : String
  cropName : String
  farmerLocation : String
  quantityNum : Option ℚ
  priceNum : Option ℚ
  availableFrom : String
  hasImage : Bool
  deriving DecidableEq, Repr

/-- An insert error as reported by the backend: a code and a message. -/
structure InsertErr where
  code : String
  message : String
  deriving DecidableEq, Repr

/-- Backend responses the handler would observe if it got that far:
the storage upload result (public URL or thrown error) and the insert
result. -/
structure SaveEnv where
  uploadResult : Except String String
  insertError : Option InsertErr
  deriving Repr

/-- Outcome of `saveProduct`: the modal error (if any) and which external
actions were attempted. -/
structure SaveOutcome where
  modalError : Option String
  uploadAttempted : Bool
  insertAttempted : Bool
  deriving DecidableEq, Repr

/-- The check `Number.isFinite(n) && n > 0` used for quantity and
price. -/
def posFinite (v : Option ℚ) : Bool :=
  match v with
  | some q => decide (0 < q)
  | none => false

/-- Embedding of the insert-error translation (src/app/profile/page.tsx,
lines 583-589): RLS denials get a dedicated message, anything else is
wrapped as a database error. -/
def insertErrMsg (e : InsertErr) : String :=
  if e.code = "42501" ∨ strContains (jsToLower e.message) "row-level security" then
    "Permission denied (RLS). Please fix your RLS policies for farm_produce."
  else "Database Error: " ++ e.message

/-- Embedding of the control flow of `saveProduct`
(src/app/profile/page.tsx, lines 526-600): auth and role guards, then
the four field validations plus the available-from check, each returning
before any upload or insert; then the optional image upload (whose
failure is caught as an unexpected error before the insert) and the
insert. -/
def saveProduct (st : SaveInput) (env : SaveEnv) : SaveOutcome :=
  if st.authenticated = false then
    ⟨some "User not authenticated. Please sign in again.", false, false⟩
  else if st.role ≠ "farmer" then ⟨some "Only farmers can add products.", false, false⟩
  else
    let name := jsTrim st.cropName
    let locationText := jsTrim st.farmerLocation
    if name = "" then ⟨some "Crop name is required.", false, false⟩
    else if locationText = "" then ⟨some "Produce location is required.", false, false⟩
    else if posFinite st.quantityNum = false then
      ⟨some "Quantity must be a valid number greater than 0.", false, false⟩
    else if posFinite st.priceNum = false then
      ⟨some "Price per unit must be a valid number greater than 0.", false, false⟩
    else if st.availableFrom = "" then
      ⟨some "Available from date is required.", false, false⟩
    else if st.hasImage then
      match env.uploadResult with
      | .error e => ⟨some ("Unexpected Error: " ++ e), true, false⟩
      | .ok _ =>
          match env.insertError with
          | some e => ⟨some (insertErrMsg e), true, true⟩
          | none => ⟨none, true, true⟩
    else
      match env.insertError with
      | some e => ⟨some (insertErrMsg e), false, true⟩
      | none => ⟨none, false, true⟩

end Profile

namespace Geo

open Real

/-- JS `Math.atan2`, restricted to real (non-`NaN`) inputs. -/
noncomputable def atan2 (y x : ℝ) : ℝ :=
  if 0 < x then arctan (y / x)
  else if x < 0 ∧ 0 ≤ y then arctan (y / x) + π
  else if x < 0 then arctan (y / x) - π
  else if x = 0 ∧ 0 < y then π / 2
  else if x = 0 ∧ y < 0 then -(π / 2)
  else 0

/-- Embedding of `haversineKm` (src/app/products/[id]/page.tsx, lines
868-880): the haversine great-circle distance with Earth radius
6371 km. -/
noncomputable def haversineKm (lat1 lon1 lat2 lon2 : ℝ) : ℝ :=
  let R : ℝ := 6371
  let dLat := (lat2 - lat1) * π / 180
  let dLon := (lon2 - lon1) * π / 180
  let a :=
    sin (dLat / 2) * sin (dLat / 2) +
      cos (lat1 * π / 180) * cos (lat2 * π / 180) * sin (dLon / 2) * sin (dLon / 2)
  let c := 2 * atan2 (Real.sqrt a) (Real.sqrt (1 - a))
  R * c

/-- Embedding of `calculateDistance` (src/app/marketplace/page.tsx,
lines 227-236): the same haversine formula, duplicated in the source. -/
noncomputable def calculateDistance (lat1 lng1 lat2 lng2 : ℝ) : ℝ :=
  let R : ℝ := 6371
  let dLat := (lat2 - lat1) * π / 180
  let dLng := (lng2 - lng1) * π / 180
  let a :=
    sin (dLat / 2) * sin (dLat / 2) +
      cos (lat1 * π / 180) * cos (lat2 * π / 180) * sin (dLng / 2) * sin (dLng / 2)
  R * (2 * atan2 (Real.sqrt a) (Real.sqrt (1 - a)))

end Geo

/-- Modelled from the spec (§4.1 / §8): the claimed free-text retention
rule common to every listing page — the lower-cased query is a substring
of the lower-cased concatenation of the listing's crop name, variety,
farmer name, and location. -/
def specTextMatch (query crop variety farmer location : String) : Bool :=
  strContains (jsToLower (crop ++ " " ++ variety ++ " " ++ farmer ++ " " ++ location))
    (jsToLower query)

namespace Examples

/-- The "Coffee / Amina / Mbale" listing of the spec's search example,
priced 1000 for the price-ceiling example. -/
def pCoffee : Home.Product :=
  ⟨"1", "Coffee", none, "standard", some 1000, some 10, "kg", "Amina", "Mbale",
    none, none, true, none⟩

/-- The "Maize / John / Gulu" listing of the spec's search example,
priced 5000. -/
def pMaize : Home.Product :=
  ⟨"2", "Maize", none, "standard", some 5000, some 10, "kg", "John", "Gulu",
    none, none, true, none⟩

/-- A third listing priced 9999 for the price-ceiling example. -/
def pBeans : Home.Product :=
  ⟨"3", "Beans", none, "standard", some 9999, some 10, "kg", "Grace", "Lira",
    none, none, true, none⟩

/-- A listing with a missing (non-finite) price. -/
def pNoPrice : Home.Product :=
  ⟨"4", "Cassava", none, "standard", none, some 10, "kg", "Okello", "Soroti",
    none, none, true, none⟩

/-- The Coffee/Amina/Mbale listing as a products-page row, carrying the
variety "Arabica". -/
def fpCoffee : ProductsList.FarmProduce :=
  ⟨"1", none, "Amina", "Mbale", "Coffee", none, some "Arabica", "standard",
    some 10, "kg", some 1000, none, true, "2025-01-01", none, none⟩

/-- The Maize/John/Gulu listing as a products-page row. -/
def fpMaize : ProductsList.FarmProduce :=
  ⟨"2", none, "John", "Gulu", "Maize", none, none, "standard",
    some 10, "kg", some 5000, none, true, "2025-01-02", none, none⟩

/-- A buyer demand without coordinates, whose computed distance is
therefore null. -/
def dNull : Marketplace.BuyerDemandRow :=
  ⟨"d1", none, "Buyer", "Coffee", "standard", 10, "kg", 1000, 30, none, none,
    none, none, "open", "2025-01-01"⟩

/-- A produce row with coordinates, available, for Discover witnesses. -/
def prPin : Discover.ProduceRow :=
  ⟨"p1", some "Amina", some "Mbale", some "Coffee", some "cash_crop", none,
    some "top", some 10, some "kg", some 1000, none, none, some 1, some 32,
    some true, some "2025-01-01"⟩

/-- A constant-zero distance function used to instantiate the
distance-parametric pipelines in witnesses. -/
def distZero : ℚ → ℚ → ℚ → ℚ → ℚ := fun _ _ _ _ => 0

end Examples

section GeoLemmas

open Real

theorem calculateDistance_eq_haversineKm (a b c d : ℝ) :
    Geo.calculateDistance a b c d = Geo.haversineKm a b c d := rfl

theorem haversineKm_self (lat lon : ℝ) : Geo.haversineKm lat lon lat lon = 0 := by
  unfold Geo.haversineKm Geo.atan2
  simp [Real.sqrt_one]

theorem haversineKm_symm (a b c d : ℝ) :
    Geo.haversineKm a b c d = Geo.haversineKm c d a b := by
  have hsin : ∀ x y : ℝ, sin ((x - y) * π / 180 / 2) = -sin ((y - x) * π / 180 / 2) := by
    intro x y
    rw [show (x - y) * π / 180 / 2 = -((y - x) * π / 180 / 2) by ring, Real.sin_neg]
  simp only [Geo.haversineKm]
  rw [hsin c a, hsin d b]
  ring_nf

end GeoLemmas

/-- C2: the haversine distance with Earth radius 6371 km — in both of its
duplicated implementations, `haversineKm` on the product-detail page and
`calculateDistance` on the marketplace page — is zero on identical
coordinate pairs (in particular at Kampala (0.3476, 32.5825)) and is
symmetric in its two coordinate pairs. -/
theorem haversine_zero_self_and_symmetric :
    (∀ lat lon : ℝ, Geo.haversineKm lat lon lat lon = 0) ∧
    (∀ lat1 lon1 lat2 lon2 : ℝ,
      Geo.haversineKm lat1 lon1 lat2 lon2 = Geo.haversineKm lat2 lon2 lat1 lon1) ∧
    Geo.haversineKm 0.3476 32.5825 0.3476 32.5825 = 0 ∧
    (∀ lat lon : ℝ, Geo.calculateDistance lat lon lat lon = 0) ∧
    (∀ lat1 lon1 lat2 lon2 : ℝ,
      Geo.calculateDistance lat1 lon1 lat2 lon2 =
        Geo.calculateDistance lat2 lon2 lat1 lon1) := by
  refine ⟨haversineKm_self, haversineKm_symm, haversineKm_self _ _, ?_, ?_⟩
  · intro lat lon
    rw [calculateDistance_eq_haversineKm]
    exact haversineKm_self lat lon
  · intro lat1 lon1 lat2 lon2
    rw [calculateDistance_eq_haversineKm, calculateDistance_eq_haversineKm]
    exact haversineKm_symm lat1 lon1 lat2 lon2

/-- C4: the Home page price-ceiling filter retains exactly the listings
whose price (with non-finite/missing prices treated as zero by
`safeNumber`) is less than or equal to the ceiling, boundary included;
for prices 1000, 5000, 9999 and ceiling 5000 exactly the first two
listings remain, and a missing price passes a nonnegative ceiling. -/
theorem price_ceiling_filter_correct :
    (∀ (mp : ℚ) (rows : List Home.Product) (p : Home.Product),
        p ∈ Home.priceFilter mp rows ↔
          p ∈ rows ∧ safeNumber p.price_per_unit 0 ≤ mp) ∧
    Home.priceFilter 5000 [Examples.pCoffee, Examples.pMaize, Examples.pBeans] =
      [Examples.pCoffee, Examples.pMaize] ∧
    Home.priceFilter 5000 [Examples.pNoPrice] = [Examples.pNoPrice] := by
  refine ⟨?_, by decide, by decide⟩
  intro mp rows p
  simp [Home.priceFilter, List.mem_filter, safeNumber]

/-- C3 counterexample: the query "arabica" is a substring of the claimed
concatenation of crop name, variety, farmer name and location for the
Coffee/Arabica/Amina/Mbale listing, yet the products listing page's
free-text filter drops that listing, because its match never consults
the variety field. -/
theorem free_text_filter_cex :
    specTextMatch "arabica" Examples.fpCoffee.crop_name
        (Examples.fpCoffee.variety.getD "") Examples.fpCoffee.farmer_name
        Examples.fpCoffee.farmer_location = true ∧
    ProductsList.filteredProductsPre "arabica" "all" [Examples.fpCoffee] = [] := by
  decide

/-- C3 (amended): on the Home page a listing is retained iff the
trimmed lower-cased query is a substring of the lower-cased space-joined
concatenation crop name, variety, location, farmer name; on the products
listing page a listing is retained iff the query is empty or a substring
of its crop name, farmer name, location or category (variety is not
searched); for the spec's two-listing example the query "amina" returns
exactly the first record on both pages. -/
theorem free_text_filter_amended :
    (∀ (query : String) (rows : List Home.Product) (p : Home.Product),
        jsToLower (jsTrim query) ≠ "" →
        (p ∈ Home.textFilter query rows ↔
          p ∈ rows ∧ strContains (Home.homeHay p) (jsToLower (jsTrim query)) = true)) ∧
    (∀ (search : String) (products : List ProductsList.FarmProduce)
        (p : ProductsList.FarmProduce),
        p ∈ ProductsList.filteredProductsPre search "all" products ↔
          p ∈ products ∧
            (jsToLower (jsTrim search) = "" ∨
              strContains (jsToLower p.crop_name) (jsToLower (jsTrim search)) = true ∨
              strContains (jsToLower p.farmer_name) (jsToLower (jsTrim search)) = true ∨
              strContains (jsToLower p.farmer_location) (jsToLower (jsTrim search)) = true ∨
              strContains (jsToLower (p.crop_category.getD ""))
                (jsToLower (jsTrim search)) = true)) ∧
    Home.textFilter "amina" [Examples.pCoffee, Examples.pMaize] = [Examples.pCoffee] ∧
    ProductsList.filteredProductsPre "amina" "all" [Examples.fpCoffee, Examples.fpMaize] =
      [Examples.fpCoffee] := by
  refine ⟨?_, ?_, by decide, by decide⟩
  · intro query rows p hq
    simp [Home.textFilter, hq, List.mem_filter]
  · intro search products p
    simp [ProductsList.filteredProductsPre, ProductsList.productsMatches,
      List.mem_filter, or_assoc]

theorem free_text_filter_amended_witness :
    Examples.pCoffee ∈ [Examples.pCoffee, Examples.pMaize] ∧
    strContains (Home.homeHay Examples.pCoffee) (jsToLower (jsTrim "amina")) = true :=
  (free_text_filter_amended.1 "amina" [Examples.pCoffee, Examples.pMaize]
      Examples.pCoffee (by decide)).mp (by decide)

theorem normalizeWhatsapp_all_digits (s : String) :
    (ProductsList.normalizeWhatsapp s).toList.all Char.isDigit = true := by
  rw [List.all_eq_true]
  intro c hc
  simp only [ProductsList.normalizeWhatsapp] at hc
  split at hc
  · rw [show ("256" ++ String.mk ((ProductsList.digitsOnly s).toList.drop 1)).toList =
        "256".toList ++ (ProductsList.digitsOnly s).toList.drop 1 from
        String.data_append _ _] at hc
    rcases List.mem_append.mp hc with hl | hr
    · have : c = '2' ∨ c = '5' ∨ c = '6' := by simpa using hl
      rcases this with rfl | rfl | rfl <;> decide
    · have hm : c ∈ (ProductsList.digitsOnly s).toList :=
        List.Sublist.mem hr (List.drop_sublist 1 _)
      exact (List.mem_filter.mp hm).2
  · exact (List.mem_filter.mp hc).2

/-- C6 counterexample: the two WhatsApp link-construction sites disagree,
so the claimed normalization rule does not hold at every site — for the
stored number "0712" (4 digits), the product-detail handler produces
"256712" although the claimed rule (replace the leading zero only when
the digits-only form has exactly 10 digits, as `normalizeWhatsapp`
implements it) leaves "0712" unchanged. -/
theorem whatsapp_normalization_cex :
    ProductDetail.msgFarmerPhone "0712" = "256712" ∧
    ProductsList.normalizeWhatsapp "0712" = "0712" := by decide

/-- C6 (amended): `normalizeWhatsapp` on the products listing page
produces a digits-only string and substitutes the Uganda country code
for a leading zero exactly when the digits-only form has 10 digits
starting with 0; the product-detail handler instead keeps digits and
plus signs and prepends 256 whenever its kept form starts with 0,
regardless of length; both map "0712345678" and "+256712345678" to
"256712345678". -/
theorem whatsapp_normalization_amended :
    (∀ s : String, (ProductsList.normalizeWhatsapp s).toList.all Char.isDigit = true) ∧
    (∀ s : String,
      ((ProductsList.digitsOnly s).length = 10 ∧
          (ProductsList.digitsOnly s).toList.head? = some '0' →
        ProductsList.normalizeWhatsapp s =
          "256" ++ String.mk ((ProductsList.digitsOnly s).toList.drop 1)) ∧
      (¬((ProductsList.digitsOnly s).length = 10 ∧
          (ProductsList.digitsOnly s).toList.head? = some '0') →
        ProductsList.normalizeWhatsapp s = ProductsList.digitsOnly s)) ∧
    ProductsList.normalizeWhatsapp "0712345678" = "256712345678" ∧
    ProductsList.normalizeWhatsapp "+256712345678" = "256712345678" ∧
    ProductDetail.msgFarmerPhone "0712345678" = "256712345678" ∧
    ProductDetail.msgFarmerPhone "+256712345678" = "256712345678" := by
  refine ⟨normalizeWhatsapp_all_digits, ?_, by decide, by decide, by decide, by decide⟩
  intro s
  constructor
  · intro h
    simp only [ProductsList.normalizeWhatsapp]
    rw [if_pos h]
  · intro h
    simp only [ProductsList.normalizeWhatsapp]
    rw [if_neg h]

theorem whatsapp_normalization_amended_witness :
    ProductsList.normalizeWhatsapp "0712345678" =
      "256" ++ String.mk ((ProductsList.digitsOnly "0712345678").toList.drop 1) :=
  (whatsapp_normalization_amended.2.1 "0712345678").1 (by decide)

/-- C7 counterexample: for the auth error message "boom", which matches
no known substring, the sign-up handler shows "boom" itself rather than
falling back to the generic message the claim describes. -/
theorem signup_error_fallback_cex :
    (Signup.handleSignupResult "guest" (.authError "boom")).submitError = some "boom" ∧
    Signup.signupErrorMessageSpec "boom" = "Registration failed. Please try again." ∧
    ("boom" : String) ≠ "Registration failed. Please try again." := by decide

/-- C7 (amended): an auth error whose lower-cased message contains
"already" or "registered" yields exactly the duplicate-account message
with no navigation; an unmatched non-empty error message is shown
verbatim (still with no navigation), and the generic fallback appears
only for an empty error message. -/
theorem signup_error_translation_amended (m role : String) :
    ((strContains (jsToLower m) "already" || strContains (jsToLower m) "registered") = true →
      Signup.handleSignupResult role (.authError m) =
        ⟨some "An account with this email already exists.", none, none⟩) ∧
    ((strContains (jsToLower m) "already" || strContains (jsToLower m) "registered") = false →
      (m ≠ "" →
        Signup.handleSignupResult role (.authError m) = ⟨some m, none, none⟩) ∧
      (m = "" →
        Signup.handleSignupResult role (.authError m) =
          ⟨some "Registration failed. Please try again.", none, none⟩)) := by
  constructor
  · intro h
    simp [Signup.handleSignupResult, Signup.signupErrorMessage, h]
  · intro h
    refine ⟨fun hm => ?_, fun hm => ?_⟩
    · simp [Signup.handleSignupResult, Signup.signupErrorMessage, h, hm]
    · subst hm
      rfl

theorem signup_error_translation_witness :
    Signup.handleSignupResult "guest" (.authError "User already registered") =
      ⟨some "An account with this email already exists.", none, none⟩ :=
  (signup_error_translation_amended "User already registered" "guest").1 (by decide)

/-- C1 counterexample: for a payload row whose `quality` arrives as
"TOP", the Home page merge stores the quality unchanged, while the
claim's normalization (lower-cased enumerated fields) would store "top";
the merge therefore does not behave as the claim specifies. -/
theorem realtime_merge_cex :
    Home.applyEvent [] (.upsert Home.rawTopQuality) ≠
      Home.applyEventSpec [] (.upsert Home.rawTopQuality) := by decide

/-- C1 (amended): for events carrying a non-falsy id, the Home page
merge behaves as claimed except that the normalization applies only the
default values for nullable fields and does not lower-case enumerated
fields: a delete removes exactly the row with the old id; an
insert/update for an unavailable record removes the row with that id;
otherwise it replaces the existing row with that id in place, or
prepends the normalized record when no such row exists. -/
theorem realtime_merge_amended (prev : List Home.Product) (i : String)
    (r : Home.RawRow) (hid : r.id = some i) (hne : i ≠ "") :
    (Home.applyEvent prev (.delete (some i)) = prev.filter (fun p => p.id ≠ i)) ∧
    ((Home.normalizeRow i r).is_available = false →
      Home.applyEvent prev (.upsert r) = prev.filter (fun p => p.id ≠ i)) ∧
    ((Home.normalizeRow i r).is_available = true → (∃ p ∈ prev, p.id = i) →
      Home.applyEvent prev (.upsert r) =
        prev.map (fun p => if p.id = i then Home.normalizeRow i r else p)) ∧
    ((Home.normalizeRow i r).is_available = true → (∀ p ∈ prev, p.id ≠ i) →
      Home.applyEvent prev (.upsert r) = Home.normalizeRow i r :: prev) := by
  have hnid : (Home.normalizeRow i r).id = i := rfl
  refine ⟨?_, ?_, ?_, ?_⟩
  · simp [Home.applyEvent, hne]
  · intro hav
    simp [Home.applyEvent, hid, hne, hav, hnid]
  · intro hav hex
    obtain ⟨p0, hp0, hp0id⟩ := hex
    rcases hfind : prev.find? (fun p => p.id = i) with _ | q
    · exact absurd hp0id (by simpa using List.find?_eq_none.mp hfind p0 hp0)
    · simp [Home.applyEvent, hid, hne, hav, hnid, hfind]
  · intro hav hall
    have hfind : prev.find? (fun p => p.id = i) = none :=
      List.find?_eq_none.mpr (fun x hx => by simpa using hall x hx)
    simp [Home.applyEvent, hid, hne, hav, hnid, hfind]

theorem realtime_merge_amended_witness :
    Home.applyEvent [] (.upsert Home.rawTopQuality) =
      Home.normalizeRow "a" Home.rawTopQuality :: [] :=
  (realtime_merge_amended [] "a" Home.rawTopQuality rfl (by decide)).2.2.2 rfl
    (fun p hp => absurd hp (List.not_mem_nil p))

/-- C9: if every row of the Home page's local products array is
available, then after applying any realtime event via the merge every
row is still available — unavailable records are removed rather than
stored, and a stored normalized record is available by the branch
condition. -/
theorem home_products_all_available (prev : List Home.Product)
    (e : Home.RealtimeEvent) (h : ∀ p ∈ prev, p.is_available = true) :
    ∀ p ∈ Home.applyEvent prev e, p.is_available = true := by
  intro p hp
  cases e with
  | delete oldId =>
      cases oldId with
      | none => exact h p hp
      | some oid =>
          simp only [Home.applyEvent] at hp
          split at hp
          · exact h p hp
          · exact h p (List.mem_filter.mp hp).1
  | upsert r =>
      rcases hr : r.id with _ | i
      · simp only [Home.applyEvent, hr] at hp
        exact h p hp
      · simp only [Home.applyEvent, hr] at hp
        by_cases hne : i = ""
        · rw [if_pos hne] at hp
          exact h p hp
        · rw [if_neg hne] at hp
          by_cases hav : (Home.normalizeRow i r).is_available = false
          · rw [if_pos hav] at hp
            exact h p (List.mem_filter.mp hp).1
          · rw [if_neg hav] at hp
            have havt : (Home.normalizeRow i r).is_available = true := by
              simpa using hav
            rcases hfind : prev.find? (fun q => q.id = (Home.normalizeRow i r).id)
              with _ | q
            · rw [hfind] at hp
              rcases List.mem_cons.mp hp with hpe | hpm
              · rw [hpe]
                exact havt
              · exact h p hpm
            · rw [hfind] at hp
              rcases List.mem_map.mp hp with ⟨q', hq', hqe⟩
              by_cases hqid : q'.id = (Home.normalizeRow i r).id
              · rw [if_pos hqid] at hqe
                rw [← hqe]
                exact havt
              · rw [if_neg hqid] at hqe
                rw [← hqe]
                exact h q' hq'

theorem home_products_all_available_witness : Examples.pCoffee.is_available = true :=
  home_products_all_available [Examples.pCoffee] (.delete none) (by decide)
    Examples.pCoffee (by decide)

/-- C10: the Home page merge preserves pairwise-distinct row ids: a
record is prepended only when no row with its id exists, in-place
replacement keeps each position's id, and removal only filters. -/
theorem home_ids_nodup (prev : List Home.Product) (e : Home.RealtimeEvent)
    (h : (prev.map Home.Product.id).Nodup) :
    ((Home.applyEvent prev e).map Home.Product.id).Nodup := by
  cases e with
  | delete oldId =>
      cases oldId with
      | none => exact h
      | some oid =>
          simp only [Home.applyEvent]
          split
          · exact h
          · exact List.Nodup.sublist
              (List.Sublist.map Home.Product.id (List.filter_sublist prev)) h
  | upsert r =>
      rcases hr : r.id with _ | i
      · simp only [Home.applyEvent, hr]
        exact h
      · simp only [Home.applyEvent, hr]
        by_cases hne : i = ""
        · rw [if_pos hne]
          exact h
        · rw [if_neg hne]
          by_cases hav : (Home.normalizeRow i r).is_available = false
          · rw [if_pos hav]
            exact List.Nodup.sublist
              (List.Sublist.map Home.Product.id (List.filter_sublist prev)) h
          · rw [if_neg hav]
            rcases hfind : prev.find? (fun q => q.id = (Home.normalizeRow i r).id)
              with _ | q
            · rw [hfind, List.map_cons]
              refine List.nodup_cons.mpr ⟨?_, h⟩
              intro hmem
              rcases List.mem_map.mp hmem with ⟨x, hx, hxid⟩
              have hne' := List.find?_eq_none.mp hfind x hx
              simp only [decide_eq_true_eq] at hne'
              exact hne' hxid
            · rw [hfind, List.map_map]
              have hcong : prev.map (Home.Product.id ∘ fun p =>
                  if p.id = (Home.normalizeRow i r).id then Home.normalizeRow i r else p) =
                  prev.map Home.Product.id := by
                refine List.map_congr_left ?_
                intro a _
                by_cases hid : a.id = (Home.normalizeRow i r).id
                · simp [Function.comp, hid]
                · simp [Function.comp, hid]
              rw [hcong]
              exact h

theorem home_ids_nodup_witness :
    ((Home.applyEvent [Examples.pCoffee] (.delete (some "zz"))).map
      Home.Product.id).Nodup :=
  home_ids_nodup [Examples.pCoffee] (.delete (some "zz")) (by decide)

theorem distLe_trans : ∀ a b c : Option ℚ,
    distLe a b = true → distLe b c = true → distLe a c = true
  | none, none, none, _, _ => rfl
  | none, none, some _, _, h2 => h2
  | none, some _, _, h1, _ => by simp [distLe] at h1
  | some _, none, none, _, _ => rfl
  | some _, none, some _, _, h2 => by simp [distLe] at h2
  | some _, some _, none, _, _ => rfl
  | some x, some y, some z, h1, h2 => by
      simp only [distLe, decide_eq_true_eq] at *
      exact le_trans h1 h2

theorem distLe_total : ∀ a b : Option ℚ, (distLe a b || distLe b a) = true
  | none, none => rfl
  | none, some _ => rfl
  | some _, none => rfl
  | some x, some y => by
      simp only [distLe, Bool.or_eq_true, decide_eq_true_eq]
      exact le_total x y

theorem distLe_none_left {a b : Option ℚ} (h : distLe a b = true) (ha : a = none) :
    b = none := by
  subst ha
  cases b with
  | none => rfl
  | some x => simp [distLe] at h

theorem pairwise_none_last_mergeSort {α : Type} (key : α → Option ℚ) (l : List α) :
    (l.mergeSort (fun a b => distLe (key a) (key b))).Pairwise
      (fun a b => key a = none → key b = none) := by
  have hs : (l.mergeSort (fun a b => distLe (key a) (key b))).Pairwise
      (fun a b => distLe (key a) (key b) = true) := by
    refine List.sorted_mergeSort ?_ ?_ l
    · exact fun a b c hab hbc => distLe_trans _ _ _ hab hbc
    · exact fun a b => distLe_total _ _
  exact hs.imp (fun hab ha => distLe_none_left hab ha)

/-- C5: in both distance-bearing pipelines — the Marketplace
`filteredDemands` and the Discover `pins` — a record whose computed
distance is null passes the radius filter for every radius (its
membership in the result does not depend on the chosen radius), and the
ascending-distance sort places every null-distance record after every
record with a non-null distance. -/
theorem null_distance_retention_and_sort :
    (∀ (distFn : ℚ → ℚ → ℚ → ℚ → ℚ) (sellerLoc : Option (ℚ × ℚ)) (search : String)
        (radiusKm : ℚ) (listings : List Marketplace.ListingRow)
        (demands : List Marketplace.BuyerDemandRow),
        (Marketplace.filteredDemands distFn sellerLoc search radiusKm listings
            demands).Pairwise (fun a b => a.2 = none → b.2 = none)) ∧
    (∀ (distFn : ℚ → ℚ → ℚ → ℚ → ℚ) (sellerLoc : Option (ℚ × ℚ)) (search : String)
        (r1 r2 : ℚ) (listings : List Marketplace.ListingRow)
        (demands : List Marketplace.BuyerDemandRow)
        (pr : Marketplace.BuyerDemandRow × Option ℚ), pr.2 = none →
        (pr ∈ Marketplace.filteredDemands distFn sellerLoc search r1 listings demands ↔
          pr ∈ Marketplace.filteredDemands distFn sellerLoc search r2 listings demands)) ∧
    (∀ (distFn : ℚ → ℚ → ℚ → ℚ → ℚ) (userLoc : Option (ℚ × ℚ)) (search : String)
        (radiusKm : ℚ) (rows : List Discover.ProduceRow),
        (Discover.pins distFn userLoc search radiusKm rows).Pairwise
          (fun a b => a.distanceKm = none → b.distanceKm = none)) ∧
    (∀ (distFn : ℚ → ℚ → ℚ → ℚ → ℚ) (userLoc : Option (ℚ × ℚ)) (search : String)
        (r1 r2 : ℚ) (rows : List Discover.ProduceRow) (pin : Discover.ProductPin),
        pin.distanceKm = none →
        (pin ∈ Discover.pins distFn userLoc search r1 rows ↔
          pin ∈ Discover.pins distFn userLoc search r2 rows)) := by
  refine ⟨?_, ?_, ?_, ?_⟩
  · intro distFn sLoc search radius listings demands
    simp only [Marketplace.filteredDemands]
    exact pairwise_none_last_mergeSort
      (fun p : Marketplace.BuyerDemandRow × Option ℚ => p.2) _
  · intro distFn sLoc search r1 r2 listings demands pr h
    simp only [Marketplace.filteredDemands, List.mem_mergeSort, List.mem_filter, h]
  · intro distFn uLoc search radius rows
    simp only [Discover.pins]
    exact pairwise_none_last_mergeSort (fun p : Discover.ProductPin => p.distanceKm) _
  · intro distFn uLoc search r1 r2 rows pin h
    simp only [Discover.pins, List.mem_mergeSort, List.mem_filter,
      Discover.matchesRadius, h]

theorem null_distance_retention_witness :
    ((Examples.dNull, (none : Option ℚ)) ∈
        Marketplace.filteredDemands Examples.distZero none "" 1 [] [Examples.dNull] ↔
      (Examples.dNull, (none : Option ℚ)) ∈
        Marketplace.filteredDemands Examples.distZero none "" 200 [] [Examples.dNull]) :=
  null_distance_retention_and_sort.2.1 Examples.distZero none "" 1 200 []
    [Examples.dNull] (Examples.dNull, none) rfl

/-- C8: whenever the trimmed crop name is empty, the trimmed location is
empty, or the quantity or price fails the finite-and-positive check, the
save handler sets an error and attempts neither the storage upload nor
the database insert; conversely the insert is attempted only when all
four validations pass. -/
theorem save_product_validation (st : Profile.SaveInput) (env : Profile.SaveEnv) :
    ((jsTrim st.cropName = "" ∨ jsTrim st.farmerLocation = "" ∨
        Profile.posFinite st.quantityNum = false ∨
        Profile.posFinite st.priceNum = false) →
      (Profile.saveProduct st env).uploadAttempted = false ∧
      (Profile.saveProduct st env).insertAttempted = false ∧
      (Profile.saveProduct st env).modalError ≠ none) ∧
    ((Profile.saveProduct st env).insertAttempted = true →
      jsTrim st.cropName ≠ "" ∧ jsTrim st.farmerLocation ≠ "" ∧
      Profile.posFinite st.quantityNum = true ∧
      Profile.posFinite st.priceNum = true) := by
  by_cases c0 : st.authenticated = false
  · have he : Profile.saveProduct st env =
        ⟨some "User not authenticated. Please sign in again.", false, false⟩ := by
      simp only [Profile.saveProduct]
      rw [if_pos c0]
    rw [he]
    exact ⟨fun _ => ⟨rfl, rfl, by simp⟩, fun hins => by simp at hins⟩
  · by_cases c1 : st.role ≠ "farmer"
    · have he : Profile.saveProduct st env =
          ⟨some "Only farmers can add products.", false, false⟩ := by
        simp only [Profile.saveProduct]
        rw [if_neg c0, if_pos c1]
      rw [he]
      exact ⟨fun _ => ⟨rfl, rfl, by simp⟩, fun hins => by simp at hins⟩
    · by_cases c2 : jsTrim st.cropName = ""
      · have he : Profile.saveProduct st env =
            ⟨some "Crop name is required.", false, false⟩ := by
          simp only [Profile.saveProduct]
          rw [if_neg c0, if_neg c1, if_pos c2]
        rw [he]
        exact ⟨fun _ => ⟨rfl, rfl, by simp⟩, fun hins => by simp at hins⟩
      · by_cases c3 : jsTrim st.farmerLocation = ""
        · have he : Profile.saveProduct st env =
              ⟨some "Produce location is required.", false, false⟩ := by
            simp only [Profile.saveProduct]
            rw [if_neg c0, if_neg c1, if_neg c2, if_pos c3]
          rw [he]
          exact ⟨fun _ => ⟨rfl, rfl, by simp⟩, fun hins => by simp at hins⟩
        · by_cases c4 : Profile.posFinite st.quantityNum = false
          · have he : Profile.saveProduct st env =
                ⟨some "Quantity must be a valid number greater than 0.", false,
                  false⟩ := by
              simp only [Profile.saveProduct]
              rw [if_neg c0, if_neg c1, if_neg c2, if_neg c3, if_pos c4]
            rw [he]
            exact ⟨fun _ => ⟨rfl, rfl, by simp⟩, fun hins => by simp at hins⟩
          · by_cases c5 : Profile.posFinite st.priceNum = false
            · have he : Profile.saveProduct st env =
                  ⟨some "Price per unit must be a valid number greater than 0.",
                    false, false⟩ := by
                simp only [Profile.saveProduct]
                rw [if_neg c0, if_neg c1, if_neg c2, if_neg c3, if_neg c4,
                  if_pos c5]
              rw [he]
              exact ⟨fun _ => ⟨rfl, rfl, by simp⟩, fun hins => by simp at hins⟩
            · refine ⟨fun h => ?_, fun _ => ⟨c2, c3, ?_, ?_⟩⟩
              · rcases h with h | h | h | h
                exacts [absurd h c2, absurd h c3, absurd h c4, absurd h c5]
              · cases hb : Profile.posFinite st.quantityNum
                · exact absurd hb c4
                · rfl
              · cases hb : Profile.posFinite st.priceNum
                · exact absurd hb c5
                · rfl

theorem save_product_validation_witness :
    (Profile.saveProduct
        ⟨true, "farmer", "", "Kampala", some 5, some 100, "2025-01-01", false⟩
        ⟨.ok "url", none⟩).insertAttempted = false :=
  ((save_product_validation _ _).1 (Or.inl (by decide))).2.1
